import Mathlib

/-!
Verification of the advent-of-code-leaderboard core against its
specification: the scoring functions of src/utils.rs, the rate-limited
fetch-through cache of src/api.rs, and a transition-system model of the
mutex-serialized request handlers of src/main.rs.

Durations are modelled as whole seconds (an integer), timestamps as
seconds since the Unix epoch. Machine integers are modelled as Nat/Int
with explicit reduction modulo 2^64 where usize arithmetic wraps.
-/

/-! ## ScoreEngine: src/utils.rs -/

def SECS_PER_DAY : Nat := 86400

/-- chrono Duration num_days: the number of whole days in the duration,
truncated toward zero (Rust i64 division truncates toward zero). -/
def num_days (secs : Int) : Int :=
  if 0 ≤ secs then ((secs.toNat / SECS_PER_DAY : Nat) : Int)
  else -(((-secs).toNat / SECS_PER_DAY : Nat) : Int)

/-- 2^64, the modulus of usize arithmetic on a 64-bit target. -/
def USIZE_MOD : Nat := 18446744073709551616

/-- The cast num_days as usize from src/utils.rs line 26: two-complement
reinterpretation of an i64 value d (so |d| < 2^63) as an unsigned 64-bit
value. -/
def i64_as_usize (d : Int) : Nat :=
  if 0 ≤ d then d.toNat else USIZE_MOD - (-d).toNat

def NUM_DAYS_WITHOUT_PENALTY : Nat := 7
def MAX_SCORE : Nat := 50
def MIN_SCORE : Nat := 10
def PENALTY_PER_DAY : Nat := 5

/-- score_puzzle from src/utils.rs lines 19-35, under release-profile
arithmetic: the multiplication penalty_days * PENALTY_PER_DAY wraps
modulo 2^64, and saturating_sub is truncated Nat subtraction. -/
def score_puzzle (secs : Int) : Nat :=
  let nd := i64_as_usize (num_days secs)
  if nd ≤ NUM_DAYS_WITHOUT_PENALTY then
    MAX_SCORE
  else
    let penalty_days := nd - NUM_DAYS_WITHOUT_PENALTY
    let penalty := penalty_days * PENALTY_PER_DAY % USIZE_MOD
    let score := MAX_SCORE - penalty
    max score MIN_SCORE

/-- score_puzzle under debug-profile arithmetic: when the multiplication
penalty_days * PENALTY_PER_DAY overflows usize the program panics,
modelled as none. All other operations in the function cannot panic
(the as-cast wraps, saturating_sub saturates, and penalty_days is
guarded by the branch condition). -/
def score_puzzle_checked (secs : Int) : Option Nat :=
  let nd := i64_as_usize (num_days secs)
  if nd ≤ NUM_DAYS_WITHOUT_PENALTY then
    some MAX_SCORE
  else
    let penalty_days := nd - NUM_DAYS_WITHOUT_PENALTY
    if USIZE_MOD ≤ penalty_days * PENALTY_PER_DAY then none
    else some (max (MAX_SCORE - penalty_days * PENALTY_PER_DAY) MIN_SCORE)

/-- The scoring formula exactly as the specification words it (section
4.2): 50 up to seven elapsed days, afterwards 50 minus 5 per further day,
floored at 10, in exact integer arithmetic. Used to compare the code
against the spec. -/
def pointsFor_spec (elapsedDays : Nat) : Int :=
  if elapsedDays ≤ 7 then 50
  else max (50 - ((elapsedDays : Int) - 7) * 5) 10

/-- Largest number of whole days representable by a chrono Duration
(i64::MAX milliseconds is 9223372036854775 whole seconds). -/
def CHRONO_MAX_DAYS : Nat := 106751991167

/-! ## release_time: src/utils.rs lines 6-16 -/

/-- Days from the Unix epoch to the civil date (y, m, d) in the
proleptic Gregorian calendar — the calendar computation chrono performs
inside with_ymd_and_hms. Euclidean division keeps negative years
correct. -/
def days_from_civil (y : Int) (m : Nat) (d : Nat) : Int :=
  let y2 : Int := if m ≤ 2 then y - 1 else y
  let era : Int := Int.ediv y2 400
  let yoe : Nat := (y2 - era * 400).toNat
  let mp : Nat := (m + 9) % 12
  let doy : Nat := (153 * mp + 2) / 5 + d - 1
  let doe : Nat := yoe * 365 + yoe / 4 - yoe / 100 + doy
  era * 146097 + (doe : Int) - 719468

/-- EST is UTC minus five hours with no daylight saving, so midnight
EST is 05:00:00 UTC and with_ymd_and_hms in December always yields a
single valid instant (the unwrap in src/utils.rs line 14 cannot fail). -/
def EST_UTC_OFFSET_SECS : Int := 5 * 3600

/-- release_time from src/utils.rs lines 6-16: reject a day outside
1..=25, otherwise return midnight EST on December day of the year as
Unix seconds (UTC). -/
def release_time (year : Int) (day : Nat) : Except String Int :=
  if day = 0 ∨ 25 < day then Except.error "Day must be between 1 and 25"
  else Except.ok (days_from_civil year 12 day * 86400 + EST_UTC_OFFSET_SECS)

/-! ## FetchCache: src/api.rs -/

/-- The minimum refresh interval of src/api.rs line 11, in seconds. -/
def MIN_FETCH_INTERVAL : Nat := 15 * 60

/-- One cached leaderboard file for one key (year, id): its content and
its modification time in seconds since the Unix epoch. -/
structure CacheEntry where
  payload : String
  mtime : Nat

/-- Result of one outbound HTTP request: err is a transport-level
failure (send or text fails); ok carries the HTTP status code and the
body text. reqwest does not turn a non-success status into an error,
and Client::fetch never inspects the status. -/
inductive NetResult where
  | err : NetResult
  | ok : Nat → String → NetResult

inductive FetchError where
  | upstream : FetchError
  | storage : FetchError

/-- The freshness check of src/api.rs lines 38-45: the cached file is
used when it exists and now minus mtime is under MIN_FETCH_INTERVAL.
When mtime lies in the future, duration_since fails and unwrap_or gives
Duration::ZERO — exactly what truncated Nat subtraction yields. -/
def use_cached_json (now : Nat) (entry : Option CacheEntry) : Bool :=
  match entry with
  | some e => decide (now - e.mtime < MIN_FETCH_INTERVAL)
  | none => false

/-- Outcome of one Client::fetch call for one key: the returned body
text (before JSON decoding), the number of network requests issued, and
the cache entry for the key afterwards. -/
structure FetchOutcome where
  result : Except FetchError String
  networkCalls : Nat
  entryAfter : Option CacheEntry

/-- Client::fetch from src/api.rs lines 32-79, per key: serve the cache
file when fresh; otherwise issue the network request, propagate a
transport failure without touching the cache, and on any response write
the body to the cache file and return it. The JSON decode of the
returned body happens afterwards and affects neither cache state nor
the network-call count. -/
def fetch (net : NetResult) (now : Nat) (entry : Option CacheEntry) : FetchOutcome :=
  if use_cached_json now entry then
    match entry with
    | some e => ⟨Except.ok e.payload, 0, some e⟩
    | none => ⟨Except.error FetchError.storage, 0, none⟩
  else
    match net with
    | NetResult.err => ⟨Except.error FetchError.upstream, 1, entry⟩
    | NetResult.ok _status body => ⟨Except.ok body, 1, some ⟨body, now⟩⟩

/-! ## Mutex-serialized request handlers: src/main.rs -/

/-- Position of one request handler inside get_leaderboard
(src/main.rs lines 95-128): before client.lock(), holding the lock
before the network request, with the network request in flight, done
fetching but still holding, and after the lock guard is dropped. -/
inductive HandlerPc where
  | start : HandlerPc
  | locked : HandlerPc
  | fetching : HandlerPc
  | fetched : HandlerPc
  | finished : HandlerPc
deriving DecidableEq

/-- Global server state: which handler task (if any) holds the shared
tokio Mutex around api::Client (src/main.rs line 70), and every handler
task's position. -/
structure SrvState where
  holder : Option Nat
  pc : Nat → HandlerPc

def initState : SrvState := ⟨none, fun _ => HandlerPc.start⟩

/-- Interleaving semantics of the handlers: a task acquires the mutex
only when free, performs its fetch while holding it, and releases it
only after the fetch returns (the MutexGuard lives to the end of the
expression in src/main.rs lines 109-115). -/
inductive SrvStep : SrvState → SrvState → Prop where
  | lock (s : SrvState) (c : Nat) : s.pc c = HandlerPc.start → s.holder = none →
      SrvStep s ⟨some c, Function.update s.pc c HandlerPc.locked⟩
  | beginFetch (s : SrvState) (c : Nat) : s.pc c = HandlerPc.locked →
      SrvStep s ⟨s.holder, Function.update s.pc c HandlerPc.fetching⟩
  | endFetch (s : SrvState) (c : Nat) : s.pc c = HandlerPc.fetching →
      SrvStep s ⟨s.holder, Function.update s.pc c HandlerPc.fetched⟩
  | unlock (s : SrvState) (c : Nat) : s.pc c = HandlerPc.fetched →
      SrvStep s ⟨none, Function.update s.pc c HandlerPc.finished⟩

def Reachable (s : SrvState) : Prop := Relation.ReflTransGen SrvStep initState s

/-- A handler holds the client lock in every position between lock
acquisition and release. -/
def HoldsLock (s : SrvState) (c : Nat) : Prop :=
  s.pc c = HandlerPc.locked ∨ s.pc c = HandlerPc.fetching ∨ s.pc c = HandlerPc.fetched

def LockInv (s : SrvState) : Prop := ∀ c, HoldsLock s c → s.holder = some c

def AtMostOneFetch (s : SrvState) : Prop :=
  ∀ c c', s.pc c = HandlerPc.fetching → s.pc c' = HandlerPc.fetching → c = c'

/-- A concrete server state with handler 0 mid-fetch, used to witness
the mutual-exclusion theorem on a reachable state. -/
def exampleSrvState : SrvState :=
  ⟨some 0,
    Function.update (Function.update initState.pc 0 HandlerPc.locked) 0 HandlerPc.fetching⟩

theorem num_days_of_nat_days (d : Nat) :
    num_days ((d : Int) * 86400) = (d : Int) := by
  have h : ((d : Int) * 86400) = ((d * 86400 : Nat) : Int) := by push_cast; ring
  rw [num_days, if_pos (by positivity), h, Int.toNat_natCast]
  norm_num [SECS_PER_DAY]

theorem score_puzzle_nonneg_days (d : Nat) (hd : d ≤ CHRONO_MAX_DAYS) :
    score_puzzle ((d : Int) * 86400) =
      if d ≤ 7 then 50 else max (50 - (d - 7) * 5) 10 := by
  have hnd : i64_as_usize (d : Int) = d := by
    rw [i64_as_usize, if_pos (Int.natCast_nonneg d), Int.toNat_natCast]
  rw [score_puzzle, num_days_of_nat_days, hnd]
  simp only [NUM_DAYS_WITHOUT_PENALTY, MAX_SCORE, MIN_SCORE, PENALTY_PER_DAY, USIZE_MOD]
  have hd' : d ≤ 106751991167 := hd
  split
  · rfl
  · have hmod : (d - 7) * 5 % 18446744073709551616 = (d - 7) * 5 :=
      Nat.mod_eq_of_lt (by omega)
    rw [hmod]

/-- Claim C2: for every non-negative elapsedDays representable by a
chrono Duration, the per-puzzle score equals 50 when elapsedDays is at
most 7, and max(50 - (elapsedDays - 7) * 5, 10) otherwise; 7 days give
50, 8 days give 45, 15 days give 10, 100 days give 10; the score is
monotonically non-increasing in elapsed time, floored at 10, never 0. -/
theorem C2_score_formula :
    (∀ d : Nat, d ≤ CHRONO_MAX_DAYS →
      (score_puzzle ((d : Int) * 86400) : Int) = pointsFor_spec d)
    ∧ score_puzzle ((7 : Int) * 86400) = 50
    ∧ score_puzzle ((8 : Int) * 86400) = 45
    ∧ score_puzzle ((15 : Int) * 86400) = 10
    ∧ score_puzzle ((100 : Int) * 86400) = 10
    ∧ (∀ d e : Nat, d ≤ e → e ≤ CHRONO_MAX_DAYS →
        score_puzzle ((e : Int) * 86400) ≤ score_puzzle ((d : Int) * 86400))
    ∧ (∀ d : Nat, d ≤ CHRONO_MAX_DAYS →
        10 ≤ score_puzzle ((d : Int) * 86400) ∧
          score_puzzle ((d : Int) * 86400) ≠ 0) := by
  refine ⟨?_, by decide, by decide, by decide, by decide, ?_, ?_⟩
  · intro d hd
    rw [score_puzzle_nonneg_days d hd, pointsFor_spec]
    by_cases h : d ≤ 7
    · simp [h]
    · rw [if_neg h, if_neg h]
      push_cast
      omega
  · intro d e hde he
    rw [score_puzzle_nonneg_days d (le_trans hde he), score_puzzle_nonneg_days e he]
    by_cases h1 : d ≤ 7 <;> by_cases h2 : e ≤ 7 <;> simp [h1, h2] <;> omega
  · intro d hd
    rw [score_puzzle_nonneg_days d hd]
    by_cases h : d ≤ 7 <;> simp [h]

/-- Witness for C2 at elapsedDays = 10. -/
theorem C2_score_formula_witness :
    (score_puzzle ((10 : Int) * 86400) : Int) = pointsFor_spec 10 :=
  C2_score_formula.1 10 (by decide)

theorem not_wrap_small (k : Nat) (h2 : k ≤ 106751991167) :
    ¬ (18446744073709551616 - k ≤ 7) := by omega

theorem score_wrap_neg (k : Nat) (h2 : k ≤ 106751991167)
    (hc : ¬ (18446744073709551616 - k ≤ 7)) :
    (if 18446744073709551616 - k ≤ 7 then (50 : Nat)
     else (50 - (18446744073709551616 - k - 7) * 5 % 18446744073709551616) ⊔ 10) = 10 := by
  rw [if_neg hc]
  clear hc
  have hm : (18446744073709551616 - k - 7) * 5 % 18446744073709551616 =
      18446744073709551616 - 5 * k - 35 := by omega
  rw [hm]
  clear hm
  have h0 : (50 : Nat) ≤ 18446744073709551616 - 5 * k - 35 := by omega
  rw [Nat.sub_eq_zero_of_le h0]
  decide

/-- Claim C7 (amended): a completionTime earlier than releaseTime by
less than one whole day truncates toward zero to elapsedDays = 0 and
scores the maximum 50; a completionTime at least one whole day earlier
yields a negative num_days whose usize cast wraps to a huge value, so
(under release-profile wrapping arithmetic) the puzzle scores the
minimum 10, not 50. -/
theorem C7_early_completion :
    (∀ s : Int, -86400 < s → s < 0 → num_days s = 0 ∧ score_puzzle s = 50)
    ∧ (∀ s : Int, -9223372036854775 ≤ s → s ≤ -86400 → score_puzzle s = 10) := by
  constructor
  · intro s h1 h2
    have hnum : num_days s = 0 := by
      rw [num_days, if_neg (by omega)]
      simp only [SECS_PER_DAY]
      omega
    refine ⟨hnum, ?_⟩
    rw [score_puzzle, hnum]
    decide
  · intro s h1 h2
    have hs : ¬ (0 ≤ s) := by omega
    simp only [score_puzzle, num_days, if_neg hs, SECS_PER_DAY]
    obtain ⟨k, hkdef⟩ : ∃ k, (-s).toNat / 86400 = k := ⟨_, rfl⟩
    have hklb : 1 ≤ k := by omega
    have hkub : k ≤ 106751991167 := by omega
    simp only [hkdef]
    have hiu : i64_as_usize (-(k : Int)) = 18446744073709551616 - k := by
      rw [i64_as_usize, if_neg (show ¬ ((0 : Int) ≤ -(k : Int)) by omega), neg_neg,
        Int.toNat_natCast, USIZE_MOD]
    simp only [hiu, USIZE_MOD, NUM_DAYS_WITHOUT_PENALTY, MAX_SCORE, MIN_SCORE,
      PENALTY_PER_DAY]
    exact score_wrap_neg k hkub (not_wrap_small k hkub)

/-- Witness for C7 at a completion one hour before release. -/
theorem C7_early_completion_witness :
    num_days (-3600) = 0 ∧ score_puzzle (-3600) = 50 :=
  C7_early_completion.1 (-3600) (by decide) (by decide)

/-- Counterexample to claim C7 as stated: a completion exactly two whole
days before release scores 10, not the claimed maximum 50 (num_days
truncates to -2, not 0, and the usize cast wraps). -/
theorem C7_counterexample :
    score_puzzle (-172800) = 10 ∧ (10 : Nat) ≠ 50 := by
  constructor
  · decide
  · decide

/-- Claim C9 (amended): for every input duration, score_puzzle under
release-profile (wrapping) arithmetic returns a value between 10 and 50
inclusive, never below 10 and never above 50; under debug-profile
overflow checks every value it returns is also in that range, but the
penalty multiplication overflows (panics) for durations of one whole
negative day or less, see the counterexample. -/
theorem C9_score_range :
    ∀ secs : Int,
      (10 ≤ score_puzzle secs ∧ score_puzzle secs ≤ 50) ∧
      (∀ v : Nat, score_puzzle_checked secs = some v → 10 ≤ v ∧ v ≤ 50) := by
  intro secs
  constructor
  · simp only [score_puzzle, NUM_DAYS_WITHOUT_PENALTY, MAX_SCORE, MIN_SCORE,
      PENALTY_PER_DAY]
    split_ifs
    · exact ⟨by norm_num, by norm_num⟩
    · exact ⟨le_max_right _ _, max_le (Nat.sub_le _ _) (by norm_num)⟩
  · intro v hv
    simp only [score_puzzle_checked, NUM_DAYS_WITHOUT_PENALTY, MAX_SCORE,
      MIN_SCORE, PENALTY_PER_DAY] at hv
    split_ifs at hv
    · injection hv with h
      subst h
      exact ⟨by norm_num, by norm_num⟩
    · injection hv with h
      subst h
      exact ⟨le_max_right _ _, max_le (Nat.sub_le _ _) (by norm_num)⟩

/-- Witness for C9 at a duration just under one day before release. -/
theorem C9_score_range_witness : (10 : Nat) ≤ 50 ∧ (50 : Nat) ≤ 50 :=
  (C9_score_range (-86399)).2 50 (by decide)

/-- Counterexample to claim C9 as stated: with debug-profile overflow
checks, score_puzzle panics (modelled as none) on a duration of exactly
minus one day, because the wrapped usize num_days makes penalty_days
huge and the multiplication penalty_days * PENALTY_PER_DAY overflows. -/
theorem C9_counterexample : score_puzzle_checked (-86400) = none := by
  decide

theorem fetch_fresh (net : NetResult) (now : Nat) (e : CacheEntry)
    (h : now - e.mtime < MIN_FETCH_INTERVAL) :
    fetch net now (some e) = ⟨Except.ok e.payload, 0, some e⟩ := by
  simp [fetch, use_cached_json, h]

theorem fetch_stale_err (now : Nat) (entry : Option CacheEntry)
    (h : use_cached_json now entry = false) :
    fetch NetResult.err now entry = ⟨Except.error FetchError.upstream, 1, entry⟩ := by
  simp [fetch, h]

theorem fetch_stale_ok (status : Nat) (body : String) (now : Nat)
    (entry : Option CacheEntry) (h : use_cached_json now entry = false) :
    fetch (NetResult.ok status body) now entry = ⟨Except.ok body, 1, some ⟨body, now⟩⟩ := by
  simp [fetch, h]

theorem use_cached_some (now : Nat) (e : CacheEntry)
    (h : use_cached_json now (some e) = true) :
    now - e.mtime < MIN_FETCH_INTERVAL := by
  simpa [use_cached_json] using h

theorem fetch_calls_le_one (net : NetResult) (now : Nat) (entry : Option CacheEntry) :
    (fetch net now entry).networkCalls ≤ 1 := by
  cases hu : use_cached_json now entry with
  | true =>
    cases entry with
    | none => simp [use_cached_json] at hu
    | some e =>
      rw [fetch_fresh net now e (use_cached_some now e hu)]
      exact Nat.zero_le 1
  | false =>
    cases net with
    | err => rw [fetch_stale_err now entry hu]
    | ok st body => rw [fetch_stale_ok st body now entry hu]

theorem fetch_calls_zero (net : NetResult) (now : Nat) (entry : Option CacheEntry)
    (h : (fetch net now entry).networkCalls = 0) :
    ∃ e, entry = some e ∧ fetch net now entry = ⟨Except.ok e.payload, 0, some e⟩ := by
  cases hu : use_cached_json now entry with
  | true =>
    cases entry with
    | none => simp [use_cached_json] at hu
    | some e => exact ⟨e, rfl, fetch_fresh net now e (use_cached_some now e hu)⟩
  | false =>
    exfalso
    cases net with
    | err =>
      rw [fetch_stale_err now entry hu] at h
      simp at h
    | ok st body =>
      rw [fetch_stale_ok st body now entry hu] at h
      simp at h

theorem fetch_success_entry (net : NetResult) (now : Nat) (entry : Option CacheEntry)
    (p : String) (hc : (fetch net now entry).networkCalls = 1)
    (hr : (fetch net now entry).result = Except.ok p) :
    (fetch net now entry).entryAfter = some ⟨p, now⟩ := by
  cases hu : use_cached_json now entry with
  | true =>
    exfalso
    cases entry with
    | none => simp [use_cached_json] at hu
    | some e =>
      rw [fetch_fresh net now e (use_cached_some now e hu)] at hc
      simp at hc
  | false =>
    cases net with
    | err =>
      rw [fetch_stale_err now entry hu] at hr
      simp at hr
    | ok st body =>
      rw [fetch_stale_ok st body now entry hu] at hr
      rw [fetch_stale_ok st body now entry hu]
      simp at hr
      rw [hr]

/-- Claim C1 (amended): when a cache entry exists whose age now - mtime
is under MIN_FETCH_INTERVAL, fetch returns the cached payload unchanged,
issues no network call, and leaves the entry as it was; two fetch calls
for the same key issued less than MIN_FETCH_INTERVAL apart that both
return payloads trigger at most one network call combined, and they
return byte-identical payloads whenever the second call issues no
network call — the payloads can differ only when the pre-existing entry
aged past MIN_FETCH_INTERVAL between the two calls, so that the second
call refreshes from the network (see the counterexample). -/
theorem C1_fresh_cache_and_two_calls :
    (∀ (net : NetResult) (now : Nat) (e : CacheEntry),
      now - e.mtime < MIN_FETCH_INTERVAL →
      fetch net now (some e) = ⟨Except.ok e.payload, 0, some e⟩)
    ∧ (∀ (net1 net2 : NetResult) (t1 t2 : Nat) (c0 : Option CacheEntry)
        (p1 p2 : String),
        t1 ≤ t2 → t2 - t1 < MIN_FETCH_INTERVAL →
        (fetch net1 t1 c0).result = Except.ok p1 →
        (fetch net2 t2 (fetch net1 t1 c0).entryAfter).result = Except.ok p2 →
        (fetch net1 t1 c0).networkCalls +
            (fetch net2 t2 (fetch net1 t1 c0).entryAfter).networkCalls ≤ 1
          ∧ ((fetch net2 t2 (fetch net1 t1 c0).entryAfter).networkCalls = 0 →
              p1 = p2)) := by
  refine ⟨fetch_fresh, ?_⟩
  intro net1 net2 t1 t2 c0 p1 p2 ht htlt hr1 hr2
  rcases Nat.lt_or_ge (fetch net1 t1 c0).networkCalls 1 with h0 | h1
  · have h0' : (fetch net1 t1 c0).networkCalls = 0 := by omega
    obtain ⟨e, hentry, hfe⟩ := fetch_calls_zero net1 t1 c0 h0'
    have hp1 : p1 = e.payload := by
      rw [hfe] at hr1
      simp at hr1
      exact hr1.symm
    have hafter : (fetch net1 t1 c0).entryAfter = some e := by rw [hfe]
    constructor
    · rw [h0']
      simpa using fetch_calls_le_one net2 t2 (fetch net1 t1 c0).entryAfter
    · intro hz
      obtain ⟨e2, he2, hfe2⟩ := fetch_calls_zero net2 t2 _ hz
      rw [hafter] at he2
      injection he2 with he2'
      rw [hfe2] at hr2
      simp at hr2
      rw [hp1, ← hr2, ← he2']
  · have h1' : (fetch net1 t1 c0).networkCalls = 1 :=
      Nat.le_antisymm (fetch_calls_le_one net1 t1 c0) h1
    have hafter := fetch_success_entry net1 t1 c0 p1 h1' hr1
    have hf2 : fetch net2 t2 (fetch net1 t1 c0).entryAfter =
        ⟨Except.ok p1, 0, some ⟨p1, t1⟩⟩ := by
      rw [hafter]
      exact fetch_fresh net2 t2 ⟨p1, t1⟩ htlt
    constructor
    · rw [h1', hf2]
      simp
    · intro hz
      rw [hf2] at hr2
      simp at hr2
      exact hr2

/-- Witness for C1 on a fresh entry five seconds old. -/
theorem C1_witness :
    fetch NetResult.err 10 (some ⟨"x", 5⟩) = ⟨Except.ok "x", 0, some ⟨"x", 5⟩⟩ :=
  C1_fresh_cache_and_two_calls.1 NetResult.err 10 ⟨"x", 5⟩ (by decide)

/-- Counterexample to claim C1 as stated: with an entry fetched at time
0 holding "a", a first call at t = 899 serves the cache and a second
call at t = 950 — only 51 seconds later, within MIN_FETCH_INTERVAL —
finds the entry stale, refreshes from the network and returns "b", so
the two calls return different payloads. -/
theorem C1_counterexample :
    fetch (NetResult.ok 200 "b") 899 (some ⟨"a", 0⟩) =
        ⟨Except.ok "a", 0, some ⟨"a", 0⟩⟩
    ∧ fetch (NetResult.ok 200 "b") 950 (some ⟨"a", 0⟩) =
        ⟨Except.ok "b", 1, some ⟨"b", 950⟩⟩
    ∧ 950 - 899 < MIN_FETCH_INTERVAL
    ∧ "a" ≠ "b" :=
  ⟨rfl, rfl, by decide, by decide⟩

/-- Claim C3: a transport-level network failure is propagated as an
upstream error — stale cached data is never served in its place — and
the cache entry for the key is left exactly as it was: a stale entry
keeps its payload and mtime, and no entry is created when none existed. -/
theorem C3_upstream_error_propagation :
    ∀ (now : Nat) (entry : Option CacheEntry),
      (fetch NetResult.err now entry).entryAfter = entry
      ∧ (use_cached_json now entry = false →
          fetch NetResult.err now entry =
            ⟨Except.error FetchError.upstream, 1, entry⟩) := by
  intro now entry
  constructor
  · cases hu : use_cached_json now entry with
    | true =>
      cases entry with
      | none => simp [use_cached_json] at hu
      | some e => rw [fetch_fresh NetResult.err now e (use_cached_some now e hu)]
    | false => rw [fetch_stale_err now entry hu]
  · intro hu
    exact fetch_stale_err now entry hu

/-- Witness for C3: a failing refresh of a stale entry errors and
leaves the entry untouched. -/
theorem C3_witness :
    fetch NetResult.err 2000 (some ⟨"stale", 0⟩) =
      ⟨Except.error FetchError.upstream, 1, some ⟨"stale", 0⟩⟩ :=
  (C3_upstream_error_propagation 2000 (some ⟨"stale", 0⟩)).2 (by decide)

/-- Claim C5 (amended): a network fetch is issued only when the entry is
missing or at least MIN_FETCH_INTERVAL old, and the modification time is
updated only by a successful fetch; hence after a network fetch that
succeeds at t1, the next network call for the key cannot happen before
t1 + MIN_FETCH_INTERVAL. A retry after a FAILED fetch is not suppressed,
because the failure leaves the modification time unchanged (see the
counterexample), contrary to what the claim asserts. -/
theorem C5_successful_fetch_spacing :
    ∀ (net1 net2 : NetResult) (t1 t2 : Nat) (c0 : Option CacheEntry) (p1 : String),
      t1 ≤ t2 →
      (fetch net1 t1 c0).networkCalls = 1 →
      (fetch net1 t1 c0).result = Except.ok p1 →
      (fetch net2 t2 (fetch net1 t1 c0).entryAfter).networkCalls = 1 →
      t1 + MIN_FETCH_INTERVAL ≤ t2 := by
  intro net1 net2 t1 t2 c0 p1 ht h1 hr1 h2
  have hafter := fetch_success_entry net1 t1 c0 p1 h1 hr1
  by_contra hlt
  have hfresh : t2 - (⟨p1, t1⟩ : CacheEntry).mtime < MIN_FETCH_INTERVAL := by
    show t2 - t1 < MIN_FETCH_INTERVAL
    omega
  rw [hafter, fetch_fresh net2 t2 ⟨p1, t1⟩ hfresh] at h2
  simp at h2

/-- Witness for C5: after a successful refresh at time 0, the next
network call happens at time 900 = MIN_FETCH_INTERVAL or later. -/
theorem C5_witness : (0 : Nat) + MIN_FETCH_INTERVAL ≤ 900 :=
  C5_successful_fetch_spacing (NetResult.ok 200 "x") NetResult.err 0 900 none "x"
    (by decide) rfl rfl rfl

/-- Counterexample to claim C5 as stated: with no cache entry, a failed
fetch at t = 0 issues a network call, leaves no entry, and an immediate
retry at t = 1 — one second later, far inside MIN_FETCH_INTERVAL —
issues a second network call. -/
theorem C5_counterexample :
    fetch NetResult.err 0 none = ⟨Except.error FetchError.upstream, 1, none⟩
    ∧ fetch NetResult.err 1 none = ⟨Except.error FetchError.upstream, 1, none⟩
    ∧ 1 - 0 < MIN_FETCH_INTERVAL :=
  ⟨rfl, rfl, by decide⟩

/-- Claim C8 is contradicted by the code (code bug): Client::fetch never
inspects the HTTP status code — reqwest only fails at the transport
level — so a non-success response (here status 500) has its body
written to the cache file and handed to the JSON decoder instead of
failing with an upstream error and leaving the cache alone. The TODO
comment at src/api.rs line 51 records the missing detection of
redirected (non-success) responses. -/
theorem C8_nonsuccess_body_cached :
    fetch (NetResult.ok 500 "<html>login</html>") 1000 none =
      ⟨Except.ok "<html>login</html>", 1, some ⟨"<html>login</html>", 1000⟩⟩ :=
  rfl

/-- Claim C10: when the cache file modification time lies in the future,
duration_since fails, the unwrap_or fallback makes the age exactly
Duration::ZERO, and the entry therefore counts as fresh: the cached
payload is served with no network call. -/
theorem C10_future_mtime_is_fresh (net : NetResult) (now : Nat) (e : CacheEntry)
    (h : now < e.mtime) :
    now - e.mtime = 0 ∧ fetch net now (some e) = ⟨Except.ok e.payload, 0, some e⟩ := by
  have hz : now - e.mtime = 0 := by omega
  refine ⟨hz, fetch_fresh net now e ?_⟩
  rw [hz]
  decide

/-- Witness for C10 on an mtime 4900 seconds in the future. -/
theorem C10_witness :
    100 - (⟨"cached", 5000⟩ : CacheEntry).mtime = 0 ∧
      fetch NetResult.err 100 (some ⟨"cached", 5000⟩) =
        ⟨Except.ok "cached", 0, some ⟨"cached", 5000⟩⟩ :=
  C10_future_mtime_is_fresh NetResult.err 100 ⟨"cached", 5000⟩ (by decide)

theorem days_from_civil_dec_succ (y : Int) (d : Nat) :
    days_from_civil y 12 (d + 1) = days_from_civil y 12 d + 1 := by
  simp only [days_from_civil]
  norm_num
  omega

/-- Claim C6: release_time fails with the invalid-day error for every
day outside 1..=25 (in particular day 0 and day 26), and for every day
in 1..=25 it deterministically returns the fixed instant of midnight
EST on December day of the year: the returned Unix time is 18000 modulo
86400 (05:00:00 UTC), consecutive December days are exactly 86400
seconds apart, and the concrete anchor 2023-12-01 00:00 EST equals Unix
time 1701406800. -/
theorem C6_release_time :
    (∀ (year : Int) (day : Nat), day = 0 ∨ 25 < day →
      release_time year day = Except.error "Day must be between 1 and 25")
    ∧ (∀ (year : Int) (day : Nat), 1 ≤ day → day ≤ 25 →
        ∃ t : Int, release_time year day = Except.ok t ∧ t % 86400 = 18000)
    ∧ (∀ (year : Int) (day : Nat), 1 ≤ day → day ≤ 24 →
        ∃ t : Int, release_time year day = Except.ok t ∧
          release_time year (day + 1) = Except.ok (t + 86400))
    ∧ release_time 2023 1 = Except.ok 1701406800 := by
  refine ⟨?_, ?_, ?_, ?_⟩
  · intro year day h
    rw [release_time, if_pos h]
  · intro year day h1 h2
    refine ⟨days_from_civil year 12 day * 86400 + EST_UTC_OFFSET_SECS, ?_, ?_⟩
    · rw [release_time, if_neg (show ¬ (day = 0 ∨ 25 < day) by omega)]
    · simp only [EST_UTC_OFFSET_SECS]
      rw [add_comm, Int.add_mul_emod_self]
      norm_num
  · intro year day h1 h2
    refine ⟨days_from_civil year 12 day * 86400 + EST_UTC_OFFSET_SECS, ?_, ?_⟩
    · rw [release_time, if_neg (show ¬ (day = 0 ∨ 25 < day) by omega)]
    · rw [release_time, if_neg (show ¬ (day + 1 = 0 ∨ 25 < day + 1) by omega),
        days_from_civil_dec_succ year day]
      congr 1
      ring
  · rfl

/-- Witness for C6: day 0 is rejected. -/
theorem C6_witness :
    release_time 2024 0 = Except.error "Day must be between 1 and 25" :=
  C6_release_time.1 2024 0 (Or.inl rfl)

theorem lockInv_init : LockInv initState := by
  intro c h
  rcases h with h | h | h <;> simp [initState] at h

theorem lockInv_step (s s' : SrvState) (hs : LockInv s) (hstep : SrvStep s s') :
    LockInv s' := by
  cases hstep with
  | lock c hpc hhold =>
    intro c' h'
    show some c = some c'
    by_cases hc : c' = c
    · rw [hc]
    · exfalso
      have hold' : HoldsLock s c' := by
        simpa [HoldsLock, Function.update_noteq hc] using h'
      have hcontra := hs c' hold'
      rw [hhold] at hcontra
      cases hcontra
  | beginFetch c hpc =>
    intro c' h'
    by_cases hc : c' = c
    · subst hc
      exact hs c' (Or.inl hpc)
    · have hold' : HoldsLock s c' := by
        simpa [HoldsLock, Function.update_noteq hc] using h'
      exact hs c' hold'
  | endFetch c hpc =>
    intro c' h'
    by_cases hc : c' = c
    · subst hc
      exact hs c' (Or.inr (Or.inl hpc))
    · have hold' : HoldsLock s c' := by
        simpa [HoldsLock, Function.update_noteq hc] using h'
      exact hs c' hold'
  | unlock c hpc =>
    intro c' h'
    exfalso
    by_cases hc : c' = c
    · subst hc
      rcases h' with h' | h' | h' <;> simp [Function.update] at h'
    · have hold' : HoldsLock s c' := by
        simpa [HoldsLock, Function.update_noteq hc] using h'
      have h1 := hs c' hold'
      have h2 := hs c (Or.inr (Or.inr hpc))
      rw [h1] at h2
      injection h2 with h3
      exact hc h3

theorem lockInv_reachable (s : SrvState) (h : Reachable s) : LockInv s := by
  induction h with
  | refl => exact lockInv_init
  | tail _ hstep ih => exact lockInv_step _ _ ih hstep

/-- Claim C4: in every reachable server state at most one handler task
has a network fetch in flight — two concurrent callers never both issue
network calls, because every fetch happens while holding the single
shared tokio Mutex around the api::Client, exactly the coarse
serialize-everything implementation the claim accepts. -/
theorem C4_single_inflight_fetch (s : SrvState) (h : Reachable s) :
    AtMostOneFetch s := by
  intro c c' hc hc'
  have h1 := lockInv_reachable s h c (Or.inr (Or.inl hc))
  have h2 := lockInv_reachable s h c' (Or.inr (Or.inl hc'))
  rw [h1] at h2
  exact Option.some.inj h2

theorem exampleSrvState_reachable : Reachable exampleSrvState := by
  have s1 : SrvStep initState ⟨some 0, Function.update initState.pc 0 HandlerPc.locked⟩ :=
    SrvStep.lock initState 0 rfl rfl
  have s2 : SrvStep ⟨some 0, Function.update initState.pc 0 HandlerPc.locked⟩
      exampleSrvState := by
    have hpc : (⟨some 0, Function.update initState.pc 0 HandlerPc.locked⟩ : SrvState).pc 0 =
        HandlerPc.locked := by
      simp
    exact SrvStep.beginFetch ⟨some 0, Function.update initState.pc 0 HandlerPc.locked⟩ 0 hpc
  exact Relation.ReflTransGen.head s1 (Relation.ReflTransGen.single s2)

/-- Witness for C4 at a concrete reachable state with handler 0
mid-fetch. -/
theorem C4_witness : AtMostOneFetch exampleSrvState :=
  C4_single_inflight_fetch exampleSrvState exampleSrvState_reachable
